import Mathlib

/-!
Verification of the mutation-execution pipeline of move-spec-testing.

This file gives a shallow embedding of the three source files
(move-mutation-test/src/mutation_test.rs, move-mutator/src/compiler.rs,
move-mutator/src/cli.rs) and proves the specification claims about them.

Filesystem effects are modelled explicitly: a path is a list of path
components and a filesystem maps paths to optional file contents.  The
external toolchain (the compiler checker, the unit-test engine, package
resolution) is out of scope of the repository and enters the model as
explicit inputs: the outcome of each external call is a parameter of the
embedded function, exactly at the program point where the source calls it.
-/

namespace MoveSpec

/-! ## Filesystem model -/

/-- A filesystem path, as a list of components. -/
abbrev FPath := List String

/-- A filesystem: maps every path to the content of the file stored there,
or to none when no file is at that path.  Directories are implicit. -/
abbrev FileSystem := FPath → Option String

/-- Tests whether the path q lies in the tree rooted at root (q is root
itself or any path below it). -/
def inTree : FPath → FPath → Bool
  | [], _ => true
  | _ :: _, [] => false
  | a :: as, b :: bs => if a = b then inTree as bs else false

/-- Writing one file: the path p now holds content c, everything else is
unchanged (std::fs::write). -/
def FileSystem.write (fs : FileSystem) (p : FPath) (c : String) : FileSystem :=
  fun q => if q = p then some c else fs q

/-- Removing one file, if present (std::fs::remove_file). -/
def FileSystem.removeFile (fs : FileSystem) (p : FPath) : FileSystem :=
  fun q => if q = p then none else fs q

/-- Recursively removing the whole tree rooted at root (the drop of a
tempfile::TempDir guard). -/
def FileSystem.removeTree (fs : FileSystem) (root : FPath) : FileSystem :=
  fun q => if inTree root q then none else fs q

/-- Copying the contents of the directory src into the directory dst
(fs_extra::dir::copy with content_only set): afterwards, the tree below dst
mirrors the tree below src, and paths outside dst are untouched. -/
def FileSystem.copyContents (fs : FileSystem) (src dst : FPath) : FileSystem :=
  fun q => if inTree dst q then fs (src ++ q.drop dst.length) else fs q

/-! ## move-mutation-test/src/mutation_test.rs -/

/-- Result of the external unit-test engine
(move_cli::base::test::UnitTestResult). -/
inductive UnitTestResult where
  | Success
  | Failure
deriving DecidableEq, Repr

/-- The test configuration consumed by run_tests.  The struct TestBuildConfig
lives in the move-mutation-test CLI layer; its fields here are exactly those
read by run_tests in mutation_test.rs. -/
structure TestBuildConfig where
  dev : Bool
  namedAddresses : List (String × Nat)
  checkTestCode : Bool
  gasLimit : Nat
  filter : Option String
  dumpState : Bool
  ignoreCompileWarnings : Bool
  applyCoverage : Bool
deriving DecidableEq, Repr

/-- Modelled from the spec: TestBuildConfig::disable_coverage is declared
outside the covered sources; per the spec and the call-site comment
(mutant runs do not calculate coverage), it returns a copy of the
configuration with the coverage flag cleared and everything else kept. -/
def TestBuildConfig.disable_coverage (cfg : TestBuildConfig) : TestBuildConfig :=
  { cfg with applyCoverage := false }

/-- The UnitTestingConfig value that run_tests hands to the engine. -/
structure UnitTestingConfig where
  filter : Option String
  reportStorageOnError : Bool
  ignoreCompileWarnings : Bool
  reportStatistics : Bool
  namedAddressValues : List (String × Nat)
deriving DecidableEq, Repr

/-- Everything run_tests passes to move_cli::base::test::run_move_unit_tests
that the claims are about: the unit-testing configuration, the gas limit
(none would mean an unlimited execution budget), the coverage flag, and the
dependency-refresh flag. -/
structure EngineCall where
  unitTestConfig : UnitTestingConfig
  gasLimit : Option Nat
  applyCoverage : Bool
  skipFetchLatestGitDeps : Bool
deriving DecidableEq, Repr

/-- The engine invocation built inside run_tests (mutation_test.rs,
lines 107-151): the gas limit is always some cfg.gasLimit, never none. -/
def run_tests_engine_call (cfg : TestBuildConfig)
    (skipFetchLatestGitDeps reportStatistics : Bool) : EngineCall :=
  { unitTestConfig :=
      { filter := cfg.filter
        reportStorageOnError := cfg.dumpState
        ignoreCompileWarnings := cfg.ignoreCompileWarnings
        reportStatistics := reportStatistics
        namedAddressValues := cfg.namedAddresses }
    gasLimit := some cfg.gasLimit
    applyCoverage := cfg.applyCoverage
    skipFetchLatestGitDeps := skipFetchLatestGitDeps }

/-- The engine invocation performed by the baseline run
run_tests_on_original_code: dependencies are fetched and statistics are
reported. -/
def run_tests_on_original_code_call (cfg : TestBuildConfig) : EngineCall :=
  run_tests_engine_call cfg false true

/-- The engine invocation performed by the mutant run
run_tests_on_mutated_code: fetching is skipped, statistics are off, and
coverage is disabled on the configuration first. -/
def run_tests_on_mutated_code_call (cfg : TestBuildConfig) : EngineCall :=
  run_tests_engine_call cfg.disable_coverage true false

/-- What a call to run_tests produces: the returned anyhow result, the
filesystem after the call, and whether the removal of the .trace artifact
was attempted. -/
structure RunResult where
  result : Except String Unit
  fs : FileSystem
  traceDeletionAttempted : Bool

/-- run_tests (mutation_test.rs, lines 100-168), given the external engine
run_move_unit_tests as a filesystem transformer: the engine reads and
writes the working tree itself (a coverage-enabled run leaves the .trace
and coverage-map artifacts under the package path) and returns its
outcome together with the filesystem as it left it.  An engine fault is
wrapped with context and returned at once; otherwise, when coverage is
on, removal of packagePath/.trace from the engine's resulting filesystem
is attempted with its own outcome discarded (deleteOk says whether the
removal succeeded), and finally the engine-reported result is mapped:
Success to ok, Failure to the fixed error message. -/
def run_tests (cfg : TestBuildConfig) (packagePath : FPath)
    (engine : FileSystem → Except String UnitTestResult × FileSystem)
    (deleteOk : Bool) (fs : FileSystem) : RunResult :=
  match engine fs with
  | (.error err, fs1) =>
      { result := .error ("failed to run unit tests: " ++ err)
        fs := fs1
        traceDeletionAttempted := false }
  | (.ok r, fs1) =>
      let fs2 : FileSystem :=
        if cfg.applyCoverage && deleteOk then
          fs1.removeFile (packagePath ++ [".trace"])
        else fs1
      { result :=
          match r with
          | .Success => .ok ()
          | .Failure => .error "Move unit test error"
        fs := fs2
        traceDeletionAttempted := cfg.applyCoverage }

/-- run_tests_on_original_code (mutation_test.rs, lines 27-56): runs
run_tests with fetching enabled and statistics on, and wraps any error in
the baseline-failure message. -/
def run_tests_on_original_code (cfg : TestBuildConfig) (packagePath : FPath)
    (engine : FileSystem → Except String UnitTestResult × FileSystem)
    (deleteOk : Bool) (fs : FileSystem) : RunResult :=
  let r := run_tests cfg packagePath engine deleteOk fs
  match r.result with
  | .error e =>
      let msg := "Test suite is failing for the original code! Unit test failed with error: " ++ e
      { r with result := .error msg }
  | .ok _ => r

/-- run_tests_on_mutated_code (mutation_test.rs, lines 72-95): disables
coverage on the configuration and runs run_tests with fetching skipped and
statistics off. -/
def run_tests_on_mutated_code (cfg : TestBuildConfig) (packagePath : FPath)
    (engine : FileSystem → Except String UnitTestResult × FileSystem)
    (deleteOk : Bool) (fs : FileSystem) : RunResult :=
  run_tests cfg.disable_coverage packagePath engine deleteOk fs

/-- The tri-state outcome of a test session, as the spec describes it. -/
inductive TestOutcome where
  | Success
  | Failure
  | EngineError (cause : String)
deriving DecidableEq, Repr

/-- Reads the tri-state outcome off the result run_tests returns: ok is
Success, the fixed message of a failed suite is Failure, and any other
error is a fault of the engine itself. -/
def classifyRunResult : Except String Unit → TestOutcome
  | .ok _ => .Success
  | .error e => if e = "Move unit test error" then .Failure else .EngineError e

/-! ### C1 and C2 -/

/-- C1: every baseline run (run_tests_on_original_code) and every mutant
run (run_tests_on_mutated_code) invokes the test engine with the finite
execution budget some cfg.gasLimit in place of the unlimited budget none. -/
theorem C1_execution_budget (cfg : TestBuildConfig) :
    (run_tests_on_original_code_call cfg).gasLimit = some cfg.gasLimit ∧
    (run_tests_on_mutated_code_call cfg).gasLimit = some cfg.gasLimit := by
  constructor <;> rfl

/-- The message run_tests produces for an engine fault never collides with
the fixed message it produces for a failed test suite, whatever the cause
string is: the lengths differ. -/
theorem engine_fault_message_ne (cause : String) :
    "failed to run unit tests: " ++ cause ≠ "Move unit test error" := by
  intro h
  have hlen : ("failed to run unit tests: " ++ cause).length =
      ("Move unit test error" : String).length := by rw [h]
  rw [String.length_append] at hlen
  have h1 : ("failed to run unit tests: " : String).length = 26 := by rfl
  have h2 : ("Move unit test error" : String).length = 20 := by rfl
  omega

/-- C2: the result of run_tests decodes to the tri-state TestOutcome:
engine-reported success gives Success, an engine-reported test failure
gives Failure, and a lower-level engine fault gives EngineError whose
message preserves the underlying cause as a suffix; the engine-fault
message can never equal the test-failure message, so the two are never
conflated. -/
theorem C2_test_outcome (cfg : TestBuildConfig) (packagePath : FPath)
    (deleteOk : Bool) (fs fs1 : FileSystem)
    (engineF : FileSystem → Except String UnitTestResult × FileSystem) :
    (engineF fs = (.ok .Success, fs1) →
      classifyRunResult
        (run_tests cfg packagePath engineF deleteOk fs).result = .Success) ∧
    (engineF fs = (.ok .Failure, fs1) →
      classifyRunResult
        (run_tests cfg packagePath engineF deleteOk fs).result = .Failure) ∧
    ∀ cause : String,
      engineF fs = (.error cause, fs1) →
      (run_tests cfg packagePath engineF deleteOk fs).result =
        .error ("failed to run unit tests: " ++ cause) ∧
      (∃ pre : String,
        "failed to run unit tests: " ++ cause = pre ++ cause) ∧
      "failed to run unit tests: " ++ cause ≠ "Move unit test error" ∧
      classifyRunResult
        (run_tests cfg packagePath engineF deleteOk fs).result =
        .EngineError ("failed to run unit tests: " ++ cause) := by
  refine ⟨fun h => ?_, fun h => ?_, fun cause h => ?_⟩
  · unfold run_tests
    rw [h]
    rfl
  · unfold run_tests
    rw [h]
    rfl
  · unfold run_tests
    rw [h]
    refine ⟨rfl, ⟨"failed to run unit tests: ", rfl⟩,
      engine_fault_message_ne cause, ?hcl⟩
    case hcl =>
      show (if ("failed to run unit tests: " ++ cause) = "Move unit test error"
            then TestOutcome.Failure
            else TestOutcome.EngineError ("failed to run unit tests: " ++ cause)) = _
      rw [if_neg (engine_fault_message_ne cause)]

/-- Witness for C2 at a concrete engine fault. -/
theorem C2_test_outcome_witness :
    classifyRunResult
      (run_tests
        { dev := false, namedAddresses := [], checkTestCode := false,
          gasLimit := 1000000, filter := none, dumpState := false,
          ignoreCompileWarnings := false, applyCoverage := false }
        ["pkg"] (fun fsx => (.error "disk full", fsx)) true
        (fun _ => none)).result =
      .EngineError "failed to run unit tests: disk full" := by
  have h := C2_test_outcome
    { dev := false, namedAddresses := [], checkTestCode := false,
      gasLimit := 1000000, filter := none, dumpState := false,
      ignoreCompileWarnings := false, applyCoverage := false }
    ["pkg"] true (fun _ => none) (fun _ => none)
    (fun fsx => (.error "disk full", fsx))
  exact (h.2.2 "disk full" rfl).2.2.2

/-! ## move-mutator/src/compiler.rs: the sandbox verifier -/

/-- The compiler configuration embedded in a BuildConfig
(move_package::CompilerConfig as read by compiler.rs). -/
structure CompilerConfig where
  skip_attribute_checks : Bool
  known_attributes : List String
  language_version : Option Nat
  compiler_version : Option Nat
  experiments : List String
deriving DecidableEq, Repr

/-- The build configuration (move_package::BuildConfig as read by
compiler.rs). -/
structure BuildConfig where
  dev_mode : Bool
  additional_named_addresses : List (String × Nat)
  test_mode : Bool
  compiler_config : CompilerConfig
deriving DecidableEq, Repr

/-- The working configuration verify_mutant derives before compiling: a
clone of the given configuration with test mode disabled (compiler.rs,
lines 329-330). -/
def verify_mutant_config (config : BuildConfig) : BuildConfig :=
  { config with test_mode := false }

/-- Path::strip_prefix as used on the canonicalized original file: defined
exactly when root leads to p, and then drops the root components. -/
def relativeTo (root p : FPath) : Option FPath :=
  if inTree root p then some (p.drop root.length) else none

/-- Outcomes of the external calls verify_mutant makes, fixed before the
call: whether canonicalize succeeds, what package root
SourcePackageLayout::try_find_root finds for a file, the fresh directory
tempfile::tempdir produces (none when its creation fails), whether the
fs_extra copy and the fs write succeed, and the external package compiler
(compile_package), which receives the working configuration, the sandbox
root and the filesystem, and returns its verdict and the filesystem after
any artifacts it wrote. -/
structure VerifyEnv where
  canonOk : Bool
  findRoot : FPath → Option FPath
  tempdir : Option FPath
  copyOk : Bool
  writeOk : Bool
  compile : BuildConfig → FPath → FileSystem → Except String Unit × FileSystem

/-- verify_mutant (compiler.rs, lines 293-334): finds the package root of
the original file, computes the file's relative path, acquires a fresh
temporary directory, copies the whole package tree into it, overwrites the
one file with the mutated source, and compiles the copy with test mode
disabled.  The temporary directory guard removes the whole temporary tree
on every exit path reached after its creation; a panic of the compile step
unwinds through the guard and is modelled as its error exit.  Returns the
result together with the filesystem after the call. -/
def verify_mutant (env : VerifyEnv) (config : BuildConfig) (fs : FileSystem)
    (mutated_source : String) (original_file : FPath) :
    Except String Unit × FileSystem :=
  if env.canonOk = false then (.error "canonicalize failed", fs) else
  match env.findRoot original_file with
  | none => (.error "unable to find package root", fs)
  | some root =>
    match relativeTo root original_file with
    | none => (.error "strip_prefix failed", fs)
    | some relative =>
      match env.tempdir with
      | none => (.error "failed to create temporary directory", fs)
      | some td =>
        let fs1 := fs.copyContents root td
        if env.copyOk = false then (.error "copy failed", fs1.removeTree td) else
        let fs2 := fs1.write (td ++ relative) mutated_source
        if env.writeOk = false then (.error "write failed", fs2.removeTree td) else
        match env.compile (verify_mutant_config config) td fs2 with
        | (.error e, fs3) => (.error e, fs3.removeTree td)
        | (.ok _, fs3) => (.ok (), fs3.removeTree td)

/-- A root leads to every path below it. -/
theorem inTree_append (root rest : FPath) : inTree root (root ++ rest) = true := by
  induction root with
  | nil => rfl
  | cons a as ih => simpa [inTree] using ih

/-- Removing a tree leaves paths outside the tree unchanged. -/
theorem removeTree_outside (fs : FileSystem) (root q : FPath)
    (h : inTree root q = false) : fs.removeTree root q = fs q := by
  simp [FileSystem.removeTree, h]

/-- Removing a tree erases every path inside the tree. -/
theorem removeTree_inside (fs : FileSystem) (root q : FPath)
    (h : inTree root q = true) : fs.removeTree root q = none := by
  simp [FileSystem.removeTree, h]

/-- Copying into dst leaves paths outside dst unchanged. -/
theorem copyContents_outside (fs : FileSystem) (src dst q : FPath)
    (h : inTree dst q = false) : fs.copyContents src dst q = fs q := by
  simp [FileSystem.copyContents, h]

/-! ### C4 -/

/-- C4: for every call to verify_mutant that acquired the temporary
directory td (and trivially also on the exit paths before its
acquisition), no file is left anywhere under td when the call returns,
whatever the outcome of the copy, the write or the compile step was —
provided td was fresh, i.e. initially held no file. -/
theorem C4_tempdir_cleanup (env : VerifyEnv) (config : BuildConfig)
    (fs : FileSystem) (src : String) (file : FPath) (td q : FPath)
    (htd : env.tempdir = some td) (hq : inTree td q = true)
    (hfresh : fs q = none) :
    (verify_mutant env config fs src file).2 q = none := by
  obtain ⟨canonOk, findRoot, tempdirOpt, copyOk, writeOk, compileF⟩ := env
  replace htd : tempdirOpt = some td := htd
  subst htd
  unfold verify_mutant
  repeat' split
  all_goals try simp_all [FileSystem.removeTree]
  all_goals (split <;> simp_all [FileSystem.removeTree])

/-- Witness for C4: a concrete successful call, checked at a concrete path
inside the temporary directory. -/
theorem C4_tempdir_cleanup_witness :
    (verify_mutant
      { canonOk := true, findRoot := fun _ => some ["pkg"],
        tempdir := some ["tmp"], copyOk := true, writeOk := true,
        compile := fun _ _ fsc => (.ok (), fsc) }
      { dev_mode := false, additional_named_addresses := [],
        test_mode := true,
        compiler_config :=
          { skip_attribute_checks := false, known_attributes := [],
            language_version := none, compiler_version := none,
            experiments := [] } }
      (fun q => if q = ["pkg", "sources", "a.move"] then some "module" else none)
      "mutated" ["pkg", "sources", "a.move"]).2 ["tmp", "sources", "a.move"]
      = none := by
  exact C4_tempdir_cleanup _ _ _ _ _ ["tmp"] ["tmp", "sources", "a.move"]
    rfl (by decide) (by decide)

/-! ### C3 and C8 -/

/-- Writing a file below a root leaves every path outside that root's tree
unchanged. -/
theorem write_outside_tree (fs : FileSystem) (root rest q : FPath) (c : String)
    (h : inTree root q = false) : fs.write (root ++ rest) c q = fs q := by
  have hne : q ≠ root ++ rest := by
    intro he
    rw [he, inTree_append] at h
    exact Bool.noConfusion h
  simp [FileSystem.write, hne]

/-- Frame property of verify_mutant: when the external compiler writes only
below the temporary directory, every path outside the temporary directory —
in particular every path under the original package root — is left exactly
as it was, on every exit path. -/
theorem verify_mutant_frame (env : VerifyEnv) (config : BuildConfig)
    (fs : FileSystem) (src : String) (file : FPath) (td q : FPath)
    (htd : env.tempdir = some td)
    (hcomp : ∀ bc p fsc r, inTree td r = false → (env.compile bc p fsc).2 r = fsc r)
    (hq : inTree td q = false) :
    (verify_mutant env config fs src file).2 q = fs q := by
  obtain ⟨canonOk, findRoot, tempdirOpt, copyOk, writeOk, compileF⟩ := env
  replace htd : tempdirOpt = some td := htd
  subst htd
  replace hcomp : ∀ bc p fsc r, inTree td r = false →
      (compileF bc p fsc).2 r = fsc r := hcomp
  unfold verify_mutant
  dsimp only
  cases canonOk with
  | false => rfl
  | true =>
    rw [if_neg (show ¬(true = false) by decide)]
    cases h2 : findRoot file with
    | none => rfl
    | some root =>
      dsimp only
      cases h3 : relativeTo root file with
      | none => rfl
      | some rel =>
        dsimp only
        have hcopy : (fs.copyContents root td) q = fs q :=
          copyContents_outside fs root td q hq
        by_cases h4 : copyOk = false
        · simp [h4, FileSystem.removeTree, hq, hcopy]
        · by_cases h5 : writeOk = false
          · have hw : ((fs.copyContents root td).write (td ++ rel) src) q = fs q := by
              rw [write_outside_tree _ _ _ _ _ hq, hcopy]
            simp [h4, h5, FileSystem.removeTree, hq, hw]
          · rcases h6 : compileF (verify_mutant_config config) td
                ((fs.copyContents root td).write (td ++ rel) src) with ⟨res, fs3⟩
            have hf3 : fs3 q = fs q := by
              have hc := hcomp (verify_mutant_config config) td
                ((fs.copyContents root td).write (td ++ rel) src) q hq
              rw [h6] at hc
              exact hc.trans (by rw [write_outside_tree _ _ _ _ _ hq, hcopy])
            cases res <;> simp [h4, h5, h6, FileSystem.removeTree, hq, hf3]

/-- A concrete coverage-enabled test configuration. -/
def sampleCoverageConfig : TestBuildConfig :=
  { dev := false, namedAddresses := [], checkTestCode := false,
    gasLimit := 1000000, filter := none, dumpState := false,
    ignoreCompileWarnings := false, applyCoverage := true }

/-- A concrete filesystem holding one trace artifact inside the package
root pkg. -/
def sampleTraceFs : FileSystem :=
  fun q => if q = ["pkg", ".trace"] then some "trace-data" else none

/-- A concrete environment for verify_mutant: package root pkg, temporary
directory tmp, every external step succeeding, a compiler that writes
nothing. -/
def sampleVerifyEnv : VerifyEnv :=
  { canonOk := true, findRoot := fun _ => some ["pkg"],
    tempdir := some ["tmp"], copyOk := true, writeOk := true,
    compile := fun _ _ fsc => (.ok (), fsc) }

/-- A concrete build configuration. -/
def sampleBuildConfig : BuildConfig :=
  { dev_mode := false, additional_named_addresses := [], test_mode := true,
    compiler_config :=
      { skip_attribute_checks := false, known_attributes := [],
        language_version := none, compiler_version := none,
        experiments := [] } }

/-- A concrete filesystem holding one source file of the package pkg. -/
def sampleVerifyFs : FileSystem :=
  fun q => if q = ["pkg", "sources", "a.move"] then some "module" else none

/-- A concrete engine invocation that completes successfully without
writing anything itself (the trace artifact in sampleTraceFs is a leftover
of an earlier coverage run, so any change to it below is made by
run_tests itself). -/
def sampleEngine : FileSystem → Except String UnitTestResult × FileSystem :=
  fun fsx => (.ok .Success, fsx)

/-- A concrete engine invocation that faults without writing anything. -/
def sampleFaultEngine : FileSystem → Except String UnitTestResult × FileSystem :=
  fun fsx => (.error "engine crashed", fsx)

/-- C3 fails as stated: a baseline run (run_tests_on_original_code) with
coverage enabled deletes the file .trace that lies inside the original
package root — the engine used here leaves the filesystem untouched, so
the deletion is performed by run_tests itself (mutation_test.rs,
lines 154-162). -/
theorem C3_counterexample :
    sampleTraceFs ["pkg", ".trace"] = some "trace-data" ∧
    sampleCoverageConfig.applyCoverage = true ∧
    (run_tests_on_original_code sampleCoverageConfig ["pkg"] sampleEngine
        true sampleTraceFs).fs ["pkg", ".trace"] = none := by
  refine ⟨rfl, rfl, ?_⟩
  show (run_tests sampleCoverageConfig ["pkg"] sampleEngine
      true sampleTraceFs).fs ["pkg", ".trace"] = none
  simp [run_tests, sampleEngine, sampleCoverageConfig, FileSystem.removeFile,
    sampleTraceFs]

/-- C3 amended: verify_mutant never creates, modifies or deletes a file
outside its per-call temporary directory (in particular none under the
original package root), provided the external compiler writes only below
that temporary directory; run_tests itself adds no filesystem change
beyond those of the engine invocation it performs — the engine may write
its own artifacts under the package path, e.g. during coverage runs —
except that a coverage-enabled run best-effort deletes
packagePath/.trace, the single exception the counterexample forces; in
particular a mutant run (run_tests_on_mutated_code, which disables
coverage) adds no change of its own to the engine's result. -/
theorem C3_operations_frame (env : VerifyEnv) (config : BuildConfig)
    (fs : FileSystem) (src : String) (file : FPath) (td : FPath)
    (cfg : TestBuildConfig) (pp : FPath)
    (engineF : FileSystem → Except String UnitTestResult × FileSystem)
    (deleteOk : Bool) (gfs : FileSystem) :
    (env.tempdir = some td →
      (∀ bc p fsc r, inTree td r = false → (env.compile bc p fsc).2 r = fsc r) →
      ∀ q, inTree td q = false →
      (verify_mutant env config fs src file).2 q = fs q) ∧
    (∀ q, q ≠ pp ++ [".trace"] →
      (run_tests cfg pp engineF deleteOk gfs).fs q = (engineF gfs).2 q) ∧
    (cfg.applyCoverage = false →
      ∀ q, (run_tests cfg pp engineF deleteOk gfs).fs q = (engineF gfs).2 q) ∧
    (∀ q, (run_tests_on_mutated_code cfg pp engineF deleteOk gfs).fs q =
      (engineF gfs).2 q) := by
  refine ⟨fun htd hcomp q hq =>
      verify_mutant_frame env config fs src file td q htd hcomp hq, ?_, ?_, ?_⟩
  · intro q hne
    unfold run_tests
    cases hE : engineF gfs with
    | mk res fs1 =>
      cases res with
      | error e => rfl
      | ok r =>
        show (if cfg.applyCoverage && deleteOk then
            fs1.removeFile (pp ++ [".trace"]) else fs1) q = fs1 q
        split
        · simp [FileSystem.removeFile, hne]
        · rfl
  · intro hcov q
    unfold run_tests
    cases hE : engineF gfs with
    | mk res fs1 =>
      cases res with
      | error e => rfl
      | ok r =>
        show (if cfg.applyCoverage && deleteOk then
            fs1.removeFile (pp ++ [".trace"]) else fs1) q = fs1 q
        rw [hcov]
        rfl
  · intro q
    unfold run_tests_on_mutated_code run_tests
    cases hE : engineF gfs with
    | mk res fs1 =>
      cases res with
      | error e => rfl
      | ok r => rfl

/-- Witness for C3 amended at concrete inputs: a concrete verify_mutant
call leaves the original source file untouched, and a concrete mutant test
run leaves the trace artifact untouched. -/
theorem C3_operations_frame_witness :
    (verify_mutant sampleVerifyEnv sampleBuildConfig sampleVerifyFs "mutated"
        ["pkg", "sources", "a.move"]).2 ["pkg", "sources", "a.move"]
      = sampleVerifyFs ["pkg", "sources", "a.move"] ∧
    (run_tests_on_mutated_code sampleCoverageConfig ["pkg"] sampleEngine
        true sampleTraceFs).fs ["pkg", ".trace"]
      = (sampleEngine sampleTraceFs).2 ["pkg", ".trace"] := by
  constructor
  · exact (C3_operations_frame sampleVerifyEnv sampleBuildConfig sampleVerifyFs
      "mutated" ["pkg", "sources", "a.move"] ["tmp"] sampleCoverageConfig
      ["pkg"] sampleEngine true sampleTraceFs).1
      rfl (fun bc p fsc r hr => rfl) ["pkg", "sources", "a.move"] (by decide)
  · exact (C3_operations_frame sampleVerifyEnv sampleBuildConfig sampleVerifyFs
      "mutated" ["pkg", "sources", "a.move"] ["tmp"] sampleCoverageConfig
      ["pkg"] sampleEngine true sampleTraceFs).2.2.2 ["pkg", ".trace"]

/-- True exactly when the engine call itself completed with a test result
rather than faulting. -/
def engineCompleted : Except String UnitTestResult → Bool
  | .ok _ => true
  | .error _ => false

/-- C8 fails as stated: in a coverage-enabled run in which the engine
itself faults, the error propagates at once and no deletion of the trace
artifact is attempted. -/
theorem C8_counterexample :
    sampleCoverageConfig.applyCoverage = true ∧
    (run_tests sampleCoverageConfig ["pkg"] sampleFaultEngine true
        sampleTraceFs).traceDeletionAttempted = false := by
  exact ⟨rfl, rfl⟩

/-- C8 amended: the deletion of packagePath/.trace is attempted exactly
after runs in which the engine completed with a test result and coverage
was enabled — so never when coverage is disabled, and never when the
engine faulted — and the run's result never depends on whether that
deletion succeeded (it is best-effort). -/
theorem C8_trace_deletion (cfg : TestBuildConfig) (pp : FPath)
    (engineF : FileSystem → Except String UnitTestResult × FileSystem)
    (d1 d2 : Bool) (fs : FileSystem) :
    (run_tests cfg pp engineF d1 fs).traceDeletionAttempted =
      (engineCompleted (engineF fs).1 && cfg.applyCoverage) ∧
    (run_tests cfg pp engineF d1 fs).result =
      (run_tests cfg pp engineF d2 fs).result := by
  unfold run_tests
  cases hE : engineF fs with
  | mk res fs1 =>
    cases res with
    | error e => exact ⟨rfl, rfl⟩
    | ok r => exact ⟨by simp [engineCompleted], rfl⟩

/-! ## move-mutator/src/compiler.rs: the model builder -/

/-- One entry of the paths vector the package layer hands to the compiler
(move_package PackagePaths): the source file paths of one package together
with its named-address bindings. -/
structure PackagePaths where
  paths : List String
  namedAddressMap : List (String × Nat)
deriving DecidableEq, Repr

/-- One BTreeMap::insert into the global address map (compiler.rs,
line 195): the binding of the inserted name is overwritten — the insert
happens whether or not the name was already bound — and every other name
is kept. -/
def insertBinding (m : String → Option Nat) (kv : String × Nat) :
    String → Option Nat :=
  fun n => if kv.1 = n then some kv.2 else m n

/-- The inner loop of the merge: insert every binding of one package. -/
def insertPack (m : String → Option Nat) (pack : PackagePaths) :
    String → Option Nat :=
  pack.namedAddressMap.foldl insertBinding m

/-- The global named-address merge loop of prepare_compiler_for_package
(compiler.rs, lines 192-199): starting from the empty map, iterate the
packages in order and insert every binding of each. -/
def mergeAddressMaps (packs : List PackagePaths) : String → Option Nat :=
  packs.foldl insertPack (fun _ => none)

/-- The package order in which prepare_compiler_for_package runs the merge
(compiler.rs, lines 179-193): the source-available dependencies, then the
root package's own paths, then the bytecode-only dependencies. -/
def prepare_compiler_address_map (src_deps : List PackagePaths)
    (root : PackagePaths) (bytecode_deps : List PackagePaths) :
    String → Option Nat :=
  mergeAddressMaps ((src_deps ++ [root]) ++ bytecode_deps)

/-- The last binding of a name in a flat list of bindings. -/
def lastBinding (bindings : List (String × Nat)) (n : String) : Option Nat :=
  bindings.foldl (fun acc kv => if kv.1 = n then some kv.2 else acc) none

/-- Folding inserts over a list, read at one name, is a fold over the flat
binding list. -/
theorem foldl_insertBinding_apply (l : List (String × Nat))
    (m : String → Option Nat) (n : String) :
    (l.foldl insertBinding m) n =
      l.foldl (fun acc kv => if kv.1 = n then some kv.2 else acc) (m n) := by
  induction l generalizing m with
  | nil => rfl
  | cons kv t ih =>
    simp only [List.foldl_cons]
    rw [ih]
    rfl

/-- The pack-level fold, read at one name, is the flat fold over the
concatenation of all the packs' binding lists. -/
theorem foldl_insertPack_apply (packs : List PackagePaths)
    (m : String → Option Nat) (n : String) :
    (packs.foldl insertPack m) n =
      (packs.map PackagePaths.namedAddressMap).flatten.foldl
        (fun acc kv => if kv.1 = n then some kv.2 else acc) (m n) := by
  induction packs generalizing m with
  | nil => rfl
  | cons p t ih =>
    simp only [List.foldl_cons, List.map_cons, List.flatten_cons, List.foldl_append]
    rw [ih]
    rw [show insertPack m p n =
      p.namedAddressMap.foldl (fun acc kv => if kv.1 = n then some kv.2 else acc)
        (m n) from foldl_insertBinding_apply p.namedAddressMap m n]

/-- The merge of the packages binds each name to its last binding in
iteration order. -/
theorem mergeAddressMaps_eq_lastBinding (packs : List PackagePaths)
    (n : String) :
    mergeAddressMaps packs n =
      lastBinding (packs.map PackagePaths.namedAddressMap).flatten n :=
  foldl_insertPack_apply packs (fun _ => none) n

/-- Starting the flat fold from an arbitrary accumulator only matters when
the list binds the name nowhere. -/
theorem foldl_lastBinding_init (b : List (String × Nat)) (n : String)
    (init : Option Nat) :
    b.foldl (fun acc kv => if kv.1 = n then some kv.2 else acc) init =
      match b.foldl (fun acc kv => if kv.1 = n then some kv.2 else acc) none with
      | some v => some v
      | none => init := by
  induction b generalizing init with
  | nil => rfl
  | cons kv t ih =>
    simp only [List.foldl_cons]
    rw [ih (if kv.1 = n then some kv.2 else init),
      ih (if kv.1 = n then some kv.2 else none)]
    cases hft : t.foldl (fun acc kv => if kv.1 = n then some kv.2 else acc) none with
    | some v => rfl
    | none =>
      by_cases h : kv.1 = n
      · simp [h]
      · simp [h]

/-- The last binding over a concatenation: the right part wins when it
binds the name at all. -/
theorem lastBinding_append (a b : List (String × Nat)) (n : String) :
    lastBinding (a ++ b) n =
      match lastBinding b n with
      | some v => some v
      | none => lastBinding a n := by
  unfold lastBinding
  rw [List.foldl_append]
  exact foldl_lastBinding_init b n _

/-- A name that occurs in the flat binding list has a last binding. -/
theorem lastBinding_of_mem (l : List (String × Nat)) (n : String) (v : Nat)
    (h : (n, v) ∈ l) : ∃ w, lastBinding l n = some w := by
  induction l with
  | nil => cases h
  | cons kv t ih =>
    show ∃ w, (kv :: t).foldl
      (fun acc kv => if kv.1 = n then some kv.2 else acc) none = some w
    rw [List.foldl_cons, foldl_lastBinding_init]
    cases hft : t.foldl (fun acc kv => if kv.1 = n then some kv.2 else acc) none with
    | some w => exact ⟨w, rfl⟩
    | none =>
      rcases List.mem_cons.mp h with heq | hmem
      · refine ⟨v, ?_⟩
        rw [← heq]
        simp
      · rcases ih hmem with ⟨w, hw⟩
        rw [show lastBinding t n =
          t.foldl (fun acc kv => if kv.1 = n then some kv.2 else acc) none
          from rfl] at hw
        rw [hft] at hw
        cases hw

/-- The three-level precedence of the prepared address map: bytecode-only
dependencies beat the root package, which beats the source
dependencies. -/
theorem prepare_compiler_address_map_eq (sd : List PackagePaths)
    (root : PackagePaths) (bd : List PackagePaths) (n : String) :
    prepare_compiler_address_map sd root bd n =
      match lastBinding (bd.map PackagePaths.namedAddressMap).flatten n with
      | some v => some v
      | none =>
        match lastBinding root.namedAddressMap n with
        | some v => some v
        | none => lastBinding (sd.map PackagePaths.namedAddressMap).flatten n := by
  unfold prepare_compiler_address_map
  rw [mergeAddressMaps_eq_lastBinding]
  rw [List.map_append, List.flatten_append, lastBinding_append]
  cases lastBinding (bd.map PackagePaths.namedAddressMap).flatten n with
  | some v => rfl
  | none =>
    dsimp only
    rw [List.map_append, List.flatten_append, lastBinding_append]
    simp only [List.map_cons, List.map_nil, List.flatten_cons, List.flatten_nil,
      List.append_nil]

/-! ### C5 and C6 -/

/-- C5: the global named-address map built by the merge loop of
prepare_compiler_for_package is a deterministic function of the package
sequence in its resolution order: every name is bound to the last binding
of that name in iteration order, and whenever at least one package binds a
name — in particular when two packages bind the same name — the merged map
carries exactly one winning value for it. -/
theorem C5_named_address_merge (packs : List PackagePaths) (n : String) :
    mergeAddressMaps packs n =
      lastBinding (packs.map PackagePaths.namedAddressMap).flatten n ∧
    ((∃ v, (n, v) ∈ (packs.map PackagePaths.namedAddressMap).flatten) →
      ∃! v, mergeAddressMaps packs n = some v) := by
  refine ⟨mergeAddressMaps_eq_lastBinding packs n, fun hex => ?_⟩
  rcases hex with ⟨v, hv⟩
  rcases lastBinding_of_mem _ n v hv with ⟨w, hw⟩
  refine ⟨w, ?_, ?_⟩
  · rw [mergeAddressMaps_eq_lastBinding]
    exact hw
  · intro y hy
    rw [mergeAddressMaps_eq_lastBinding, hw] at hy
    exact (Option.some.injEq _ _ ▸ hy).symm

/-- A package binding the name a twice, to check the conflict rule. -/
def samplePackA : PackagePaths :=
  { paths := ["dep1/sources/m.move"], namedAddressMap := [("a", 1)] }

/-- A second package binding the same name a. -/
def samplePackB : PackagePaths :=
  { paths := ["dep2/sources/m.move"], namedAddressMap := [("a", 2)] }

/-- Witness for C5 at a concrete conflict: two packages bind a, and the
merge carries exactly one winner. -/
theorem C5_named_address_merge_witness :
    mergeAddressMaps [samplePackA, samplePackB] "a" =
      lastBinding
        (([samplePackA, samplePackB].map PackagePaths.namedAddressMap).flatten)
        "a" ∧
    ∃! v, mergeAddressMaps [samplePackA, samplePackB] "a" = some v := by
  refine ⟨(C5_named_address_merge [samplePackA, samplePackB] "a").1, ?_⟩
  refine (C5_named_address_merge [samplePackA, samplePackB] "a").2 ⟨1, ?_⟩
  simp [samplePackA, samplePackB]

/-- C6: the merge order of prepare_compiler_for_package is the
source-available dependencies, then the root package, then the
bytecode-only dependencies, and every insertion overwrites any earlier
binding of the same name, so the last-inserted package wins a conflict: a
binding declared by a bytecode-only dependency overrides the root package
and every source dependency; failing that, the root package's binding
overrides the source dependencies; failing both, the name resolves to its
last binding among the source dependencies. -/
theorem C6_merge_precedence (src_deps : List PackagePaths)
    (root : PackagePaths) (bytecode_deps : List PackagePaths) (n : String) :
    (∀ v,
      lastBinding (bytecode_deps.map PackagePaths.namedAddressMap).flatten n
        = some v →
      prepare_compiler_address_map src_deps root bytecode_deps n = some v) ∧
    (lastBinding (bytecode_deps.map PackagePaths.namedAddressMap).flatten n
        = none →
      ∀ v, lastBinding root.namedAddressMap n = some v →
      prepare_compiler_address_map src_deps root bytecode_deps n = some v) ∧
    (lastBinding (bytecode_deps.map PackagePaths.namedAddressMap).flatten n
        = none →
      lastBinding root.namedAddressMap n = none →
      prepare_compiler_address_map src_deps root bytecode_deps n =
        lastBinding (src_deps.map PackagePaths.namedAddressMap).flatten n) := by
  refine ⟨?_, ?_, ?_⟩
  · intro v hv
    rw [prepare_compiler_address_map_eq, hv]
  · intro hb v hv
    rw [prepare_compiler_address_map_eq, hb, hv]
  · intro hb hr
    rw [prepare_compiler_address_map_eq, hb, hr]

/-- A root package binding the name std. -/
def sampleRootPack : PackagePaths :=
  { paths := ["sources/main.move"], namedAddressMap := [("std", 1)] }

/-- A bytecode-only dependency binding the same name std. -/
def sampleBytecodePack : PackagePaths :=
  { paths := ["dep/bytecode/m.mv"], namedAddressMap := [("std", 7)] }

/-- Witness for C6 at a concrete conflict: the bytecode-only dependency's
binding for std overrides the root package's binding for std. -/
theorem C6_merge_precedence_witness :
    prepare_compiler_address_map [] sampleRootPack [sampleBytecodePack] "std"
      = some 7 := by
  exact (C6_merge_precedence [] sampleRootPack [sampleBytecodePack] "std").1 7
    (by decide)

/-! ## move-mutator/src/compiler.rs: generate_ast -/

/-- Severity of a diagnostic (codespan_reporting), with its rank: Help
below Note below Warning below Error below Bug. -/
inductive Severity where
  | Help
  | Note
  | Warning
  | Error
  | Bug
deriving DecidableEq, Repr

/-- Numeric rank of a severity. -/
def Severity.rank : Severity → Nat
  | .Help => 0
  | .Note => 1
  | .Warning => 2
  | .Error => 3
  | .Bug => 4

/-- The compiled model produced by run_checker, insofar as generate_ast
inspects it: its list of diagnostics, each with a severity and text. -/
structure GlobalEnv where
  diags : List (Severity × String)
deriving DecidableEq, Repr

/-- GlobalEnv::has_errors: the model carries some diagnostic at Error
severity or above. -/
def GlobalEnv.has_errors (env : GlobalEnv) : Bool :=
  env.diags.any fun d => Nat.ble (Severity.rank .Error) d.1.rank

/-- GlobalEnv::report_diag at a severity bound: the diagnostics emitted to
the sink are exactly those at that severity or above. -/
def GlobalEnv.report_diag (env : GlobalEnv) (sev : Severity) :
    List (Severity × String) :=
  env.diags.filter fun d => Nat.ble sev.rank d.1.rank

/-- A path as the mutator configuration stores it (a PathBuf): its UTF-8
string form when representable (Path::to_str), none otherwise. -/
structure MPath where
  toStr : Option String
deriving DecidableEq, Repr

/-- The project section of the mutator configuration, insofar as
generate_ast reads it. -/
structure ProjectConfig where
  move_sources : List MPath
deriving DecidableEq, Repr

/-- The mutator configuration (crate::configuration::Configuration). -/
structure Configuration where
  project : ProjectConfig
deriving DecidableEq, Repr

/-- The source-file collection at the top of generate_ast (compiler.rs,
lines 58-63): converts every configured path with to_str, panicking —
modelled as none — on a path that has no UTF-8 form. -/
def sourceFilesOf : List MPath → Option (List String)
  | [] => some []
  | p :: ps => p.toStr.bind fun s => (sourceFilesOf ps).map fun t => s :: t

/-- The compiler options generate_ast builds (move_compiler_v2::Options,
the fields compiler.rs sets). -/
structure Options where
  sources : List String
  dependencies : List String
  named_address_mapping : List String
  skip_attribute_checks : Bool
  known_attributes : List String
deriving DecidableEq, Repr

/-- One BTreeMap insertion into a key-sorted association list: placed
before the first larger key, overwriting the value on an equal key. -/
def insertSorted : List (String × Nat) → String × Nat → List (String × Nat)
  | [], kv => [kv]
  | (k, v) :: t, kv =>
    if kv.1 < k then kv :: (k, v) :: t
    else if kv.1 = k then (kv.1, kv.2) :: t
    else (k, v) :: insertSorted t kv

/-- Collecting a sequence of bindings into a BTreeMap, as a key-sorted
association list with later entries overwriting earlier ones. -/
def collectBTree (l : List (String × Nat)) : List (String × Nat) :=
  l.foldl insertSorted []

/-- prepare_compiler_for_files (compiler.rs, lines 236-270): compile
exactly the given files, with an empty dependency list, and a
named-address mapping rendered as name=value strings only from the
configuration's additional named addresses. -/
def prepare_compiler_for_files (config : BuildConfig)
    (source_files : List String) : Options :=
  { sources := source_files
    dependencies := []
    named_address_mapping :=
      (collectBTree config.additional_named_addresses).map
        fun kv => kv.1 ++ "=" ++ toString kv.2
    skip_attribute_checks := config.compiler_config.skip_attribute_checks
    known_attributes := config.compiler_config.known_attributes }

/-- A computation that either panics with a message or returns a value. -/
inductive PanicOr (α : Type) where
  | panicked (msg : String)
  | returned (a : α)
deriving DecidableEq, Repr

/-- The tail of generate_ast after mode selection (compiler.rs, lines
76-87): run the checker on the selected options; on a model carrying
errors, report every diagnostic from Warning severity up to the standard
error stream and fail.  Returns the result together with the diagnostics
emitted. -/
def generate_ast_with_options (optionsResult : Except String Options)
    (checker : Options → Except String GlobalEnv) :
    PanicOr (Except String GlobalEnv × List (Severity × String)) :=
  match optionsResult with
  | .error e => .returned (.error e, [])
  | .ok options =>
    match checker options with
    | .error e => .returned (.error e, [])
    | .ok env =>
      if env.has_errors then
        .returned (.error "AST generation failed", env.report_diag .Warning)
      else .returned (.ok env, [])

/-- generate_ast (compiler.rs, lines 51-88), with the external calls as
explicit inputs: packageOptions stands for the result of
prepare_compiler_for_package (package resolution is an external call) and
checker for run_checker.  Converts the configured move_sources to strings,
panicking on a path with no UTF-8 form; selects package mode exactly when
that list is empty and file-list mode otherwise; then checks the model and
reports diagnostics as generate_ast_with_options does. -/
def generate_ast (mutator_config : Configuration) (config : BuildConfig)
    (packageOptions : Except String Options)
    (checker : Options → Except String GlobalEnv) :
    PanicOr (Except String GlobalEnv × List (Severity × String)) :=
  match sourceFilesOf mutator_config.project.move_sources with
  | none => .panicked "source path contains invalid characters"
  | some source_files =>
    generate_ast_with_options
      (if source_files.isEmpty then packageOptions
       else .ok (prepare_compiler_for_files config source_files))
      checker

/-! ### C7, C9 and C10 -/

/-- The source-file collection panics exactly when some configured path
has no UTF-8 form. -/
theorem sourceFilesOf_eq_none (l : List MPath) :
    sourceFilesOf l = none ↔ ∃ p ∈ l, p.toStr = none := by
  induction l with
  | nil => simp [sourceFilesOf]
  | cons p ps ih =>
    cases hp : p.toStr with
    | none => simp [sourceFilesOf, hp]
    | some s => simp [sourceFilesOf, hp, ih, Option.map_eq_none']

/-- The collected source-file list is empty exactly when the configured
path list is empty. -/
theorem sourceFilesOf_nil_iff (l : List MPath) (sf : List String)
    (h : sourceFilesOf l = some sf) : sf = [] ↔ l = [] := by
  cases l with
  | nil =>
    simp only [sourceFilesOf, Option.some.injEq] at h
    subst h
    simp
  | cons p ps =>
    refine iff_of_false ?_ (by simp)
    intro hsf
    subst hsf
    cases hp : p.toStr with
    | none => simp [sourceFilesOf, hp] at h
    | some s => simp [sourceFilesOf, hp, Option.map_eq_some'] at h

/-- A member of a BTreeMap insertion is a member of the old map or the
inserted binding itself. -/
theorem mem_insertSorted (acc : List (String × Nat)) (kv x : String × Nat)
    (h : x ∈ insertSorted acc kv) : x ∈ acc ∨ x = kv := by
  induction acc with
  | nil =>
    simp only [insertSorted, List.mem_singleton] at h
    exact Or.inr h
  | cons hd t ih =>
    rcases hd with ⟨k, v⟩
    simp only [insertSorted] at h
    by_cases h1 : kv.1 < k
    · rw [if_pos h1] at h
      rcases List.mem_cons.mp h with he | hm
      · exact Or.inr he
      · exact Or.inl hm
    · rw [if_neg h1] at h
      by_cases h2 : kv.1 = k
      · rw [if_pos h2] at h
        rcases List.mem_cons.mp h with he | hm
        · exact Or.inr (he.trans Prod.mk.eta)
        · exact Or.inl (List.mem_cons_of_mem _ hm)
      · rw [if_neg h2] at h
        rcases List.mem_cons.mp h with he | hm
        · exact Or.inl (by rw [he]; exact List.mem_cons_self _ _)
        · rcases ih hm with hin | heq
          · exact Or.inl (List.mem_cons_of_mem _ hin)
          · exact Or.inr heq

/-- Folding BTreeMap insertions only produces members of the accumulator
or of the inserted list. -/
theorem mem_foldl_insertSorted (l : List (String × Nat))
    (acc : List (String × Nat)) (x : String × Nat)
    (h : x ∈ l.foldl insertSorted acc) : x ∈ acc ∨ x ∈ l := by
  induction l generalizing acc with
  | nil => exact Or.inl h
  | cons kv t ih =>
    rw [List.foldl_cons] at h
    rcases ih (insertSorted acc kv) h with hi | ht
    · rcases mem_insertSorted acc kv x hi with ha | he
      · exact Or.inl ha
      · exact Or.inr (by rw [he]; exact List.mem_cons_self _ _)
    · exact Or.inr (List.mem_cons_of_mem _ ht)

/-- Every binding of the collected BTreeMap comes from the input list. -/
theorem mem_collectBTree (l : List (String × Nat)) (x : String × Nat)
    (h : x ∈ collectBTree l) : x ∈ l := by
  rcases mem_foldl_insertSorted l [] x h with hnil | hl
  · cases hnil
  · exact hl

/-- A diagnostic sink: either the standard-error stream a function opens
itself, or a sink owned and supplied by a caller (identified by a
number). -/
inductive Sink where
  | stderr
  | caller (id : Nat)
deriving DecidableEq, Repr

/-- Whether a sink is one owned and supplied by the caller. -/
def Sink.isCallerSupplied : Sink → Bool
  | .stderr => false
  | .caller _ => true

/-- The diagnostic emission generate_ast performs when the model carries
errors (compiler.rs, lines 79-83): the sink written to and the diagnostics
written.  The sink is the standard-error stream generate_ast itself opens
at line 80 (termcolor StandardStream stderr); generate_ast has no sink
parameter, so no caller-supplied sink can enter, and the sink is the same
whatever the model is. -/
def generate_ast_error_report (env : GlobalEnv) :
    Sink × List (Severity × String) :=
  (Sink.stderr, env.report_diag .Warning)

/-- An empty mutator configuration, forcing package mode. -/
def sampleEmptyConfiguration : Configuration :=
  { project := { move_sources := [] } }

/-- A mutator configuration with one UTF-8 source path, forcing file-list
mode. -/
def sampleFileConfiguration : Configuration :=
  { project := { move_sources := [{ toStr := some "a.move" }] } }

/-- A mutator configuration with one path that has no UTF-8 form. -/
def sampleBadConfiguration : Configuration :=
  { project := { move_sources := [{ toStr := none }] } }

/-- A model carrying one error-severity diagnostic. -/
def sampleErrEnv : GlobalEnv := { diags := [(Severity.Error, "type error")] }

/-- Concrete compiler options, as the external package resolution would
return them. -/
def sampleOptions : Options :=
  { sources := [], dependencies := [], named_address_mapping := [],
    skip_attribute_checks := false, known_attributes := [] }

/-- C7 fails as stated: the sink that receives the diagnostics of a
failing model is the standard-error stream generate_ast opens itself
(compiler.rs, line 80), not a caller-supplied sink — generate_ast has no
sink parameter a caller could supply; shown on a concrete failing call
whose reported diagnostics are exactly the error report's. -/
theorem C7_counterexample :
    (generate_ast_error_report sampleErrEnv).1 = Sink.stderr ∧
    (generate_ast_error_report sampleErrEnv).1.isCallerSupplied = false ∧
    generate_ast sampleEmptyConfiguration sampleBuildConfig (.ok sampleOptions)
        (fun _ => .ok sampleErrEnv) =
      .returned (.error "AST generation failed",
        (generate_ast_error_report sampleErrEnv).2) := by
  exact ⟨rfl, rfl, rfl⟩

/-- C7 amended: when generate_ast reaches the checker and the checker
produces a model, generate_ast fails — emitting every diagnostic from
Warning severity up — exactly when the model carries at least one
diagnostic at Error severity or above, and a model carrying only warnings
or below does not fail the build and reports nothing; the emission on
failure goes to the standard-error sink generate_ast opens itself, which
is never a caller-supplied sink. -/
theorem C7_model_build_error (mc : Configuration) (config : BuildConfig)
    (packageOptions : Except String Options)
    (checker : Options → Except String GlobalEnv)
    (sf : List String) (opts : Options) (env : GlobalEnv)
    (hsf : sourceFilesOf mc.project.move_sources = some sf)
    (hopt : (if sf.isEmpty then packageOptions
             else .ok (prepare_compiler_for_files config sf)) = .ok opts)
    (hch : checker opts = .ok env) :
    generate_ast mc config packageOptions checker =
      .returned (if env.has_errors
        then (.error "AST generation failed", (generate_ast_error_report env).2)
        else (.ok env, [])) ∧
    (env.has_errors = true ↔
      ∃ d ∈ env.diags, Severity.rank .Error ≤ Severity.rank d.1) ∧
    (env.has_errors = false →
      generate_ast mc config packageOptions checker =
        .returned (.ok env, [])) ∧
    (generate_ast_error_report env).1 = Sink.stderr ∧
    (generate_ast_error_report env).1.isCallerSupplied = false := by
  have hg : generate_ast mc config packageOptions checker =
      .returned (if env.has_errors
        then (.error "AST generation failed", (generate_ast_error_report env).2)
        else (.ok env, [])) := by
    unfold generate_ast
    rw [hsf]
    dsimp only
    unfold generate_ast_with_options
    rw [hopt]
    dsimp only
    rw [hch]
    dsimp only
    cases henv : env.has_errors <;> simp [henv, generate_ast_error_report]
  refine ⟨hg, ?_, ?_, rfl, rfl⟩
  · simp [GlobalEnv.has_errors, List.any_eq_true, Nat.ble_eq]
  · intro hne
    rw [hg, hne]
    simp

/-- Witness for C7 amended: on a model with one error-severity diagnostic,
the build fails, the diagnostic is reported, and the reporting sink is the
internally opened standard-error stream, not a caller-supplied one. -/
theorem C7_model_build_error_witness :
    generate_ast sampleEmptyConfiguration sampleBuildConfig (.ok sampleOptions)
        (fun _ => .ok sampleErrEnv) =
      .returned (.error "AST generation failed",
        [(Severity.Error, "type error")]) ∧
    (generate_ast_error_report sampleErrEnv).1.isCallerSupplied = false := by
  have h := C7_model_build_error sampleEmptyConfiguration sampleBuildConfig
    (.ok sampleOptions) (fun _ => .ok sampleErrEnv) [] sampleOptions
    sampleErrEnv rfl rfl rfl
  refine ⟨?_, h.2.2.2.2⟩
  rw [h.1]
  rfl

/-- C9: generate_ast selects file-list mode exactly when the configured
move_sources list is non-empty; in that mode the options handed to the
checker are built by prepare_compiler_for_files, whose dependency list is
empty, whose sources are exactly the given files, and whose named-address
mapping is drawn only from the named addresses already present in the
build configuration; with an empty move_sources list, package mode is
selected and the externally resolved package options are used instead. -/
theorem C9_file_list_mode (mc : Configuration) (config : BuildConfig)
    (packageOptions : Except String Options)
    (checker : Options → Except String GlobalEnv) (sf : List String)
    (hsf : sourceFilesOf mc.project.move_sources = some sf) :
    (sf = [] ↔ mc.project.move_sources = []) ∧
    (mc.project.move_sources ≠ [] →
      generate_ast mc config packageOptions checker =
        generate_ast_with_options
          (.ok (prepare_compiler_for_files config sf)) checker ∧
      (prepare_compiler_for_files config sf).dependencies = [] ∧
      (prepare_compiler_for_files config sf).sources = sf ∧
      ∀ s ∈ (prepare_compiler_for_files config sf).named_address_mapping,
        ∃ kv ∈ config.additional_named_addresses,
          s = kv.1 ++ "=" ++ toString kv.2) ∧
    (mc.project.move_sources = [] →
      generate_ast mc config packageOptions checker =
        generate_ast_with_options packageOptions checker) := by
  have hiff := sourceFilesOf_nil_iff mc.project.move_sources sf hsf
  refine ⟨hiff, fun hne => ?_, fun hnil => ?_⟩
  · have hsfne : sf ≠ [] := fun h0 => hne (hiff.mp h0)
    have hEmpty : sf.isEmpty = false := by
      cases sf with
      | nil => exact absurd rfl hsfne
      | cons a t => rfl
    refine ⟨?_, rfl, rfl, ?_⟩
    · unfold generate_ast
      rw [hsf]
      dsimp only
      rw [if_neg (by simp [hEmpty])]
    · intro s hs
      have hs2 : s ∈ (collectBTree config.additional_named_addresses).map
          fun kv => kv.1 ++ "=" ++ toString kv.2 := hs
      rcases List.mem_map.mp hs2 with ⟨kv, hkv, hfk⟩
      exact ⟨kv, mem_collectBTree _ kv hkv, hfk.symm⟩
  · have hsf0 : sf = [] := hiff.mpr hnil
    subst hsf0
    unfold generate_ast
    rw [hsf]
    rfl

/-- Witness for C9 at a concrete single-file configuration: file-list mode
is taken and its dependency list is empty. -/
theorem C9_file_list_mode_witness :
    generate_ast sampleFileConfiguration sampleBuildConfig (.error "unused")
        (fun _ => .ok { diags := [] }) =
      generate_ast_with_options
        (.ok (prepare_compiler_for_files sampleBuildConfig ["a.move"]))
        (fun _ => .ok { diags := [] }) ∧
    (prepare_compiler_for_files sampleBuildConfig ["a.move"]).dependencies
      = [] := by
  have h := (C9_file_list_mode sampleFileConfiguration sampleBuildConfig
    (.error "unused") (fun _ => .ok { diags := [] }) ["a.move"] rfl).2.1
    (by decide)
  exact ⟨h.1, h.2.1⟩

/-- C10: generate_ast panics — rather than returning an error — exactly on
configurations in which some move_sources path has no UTF-8 form; when
every configured path is valid UTF-8, the panic branch is unreachable and
the call returns. -/
theorem C10_panic_on_invalid_path (mc : Configuration) (config : BuildConfig)
    (packageOptions : Except String Options)
    (checker : Options → Except String GlobalEnv) :
    ((∃ p ∈ mc.project.move_sources, p.toStr = none) →
      generate_ast mc config packageOptions checker =
        .panicked "source path contains invalid characters") ∧
    ((∀ p ∈ mc.project.move_sources, p.toStr ≠ none) →
      ∃ r, generate_ast mc config packageOptions checker = .returned r) := by
  constructor
  · intro hex
    have hn : sourceFilesOf mc.project.move_sources = none :=
      (sourceFilesOf_eq_none _).mpr hex
    unfold generate_ast
    rw [hn]
  · intro hall
    cases hs : sourceFilesOf mc.project.move_sources with
    | none =>
      rcases (sourceFilesOf_eq_none _).mp hs with ⟨p, hp, hnone⟩
      exact absurd hnone (hall p hp)
    | some sf =>
      unfold generate_ast
      rw [hs]
      dsimp only
      unfold generate_ast_with_options
      split
      · exact ⟨_, rfl⟩
      · split
        · exact ⟨_, rfl⟩
        · split
          · exact ⟨_, rfl⟩
          · exact ⟨_, rfl⟩

/-- Witness for C10: a configuration holding one non-UTF-8 path makes
generate_ast panic with the expected message. -/
theorem C10_panic_on_invalid_path_witness :
    generate_ast sampleBadConfiguration sampleBuildConfig (.error "unused")
        (fun _ => .ok { diags := [] }) =
      .panicked "source path contains invalid characters" := by
  exact (C10_panic_on_invalid_path sampleBadConfiguration sampleBuildConfig
    (.error "unused") (fun _ => .ok { diags := [] })).1
    ⟨{ toStr := none }, by decide, rfl⟩

end MoveSpec
